import Mathlib

/-!
Shallow embedding of the SEC-Client repository `client` package
(`_utils.py`, `_types.py`, `_BaseClient.py`, `_DownloadFormManager.py`,
`EdgarClient.py`, `EdgarAPIError.py`) together with theorems about its
pagination aggregator, transport error wrapping, caller-input validation,
fact-table normalization and the bulk extraction worker.

Python `int` is modelled by `Nat`/`Int` (no machine overflow occurs on the
modelled paths).  Network effects are modelled by passing the would-be
responses to the functions explicitly; raised Python exceptions are
modelled with `Except` / `Option` results.  Python `dict`s are modelled as
association lists with in-place value update (`dictInsert`), preserving
insertion order exactly as CPython does.
-/

/-- `listIsPrefix pat l` is true when `pat` is an initial segment of `l`.
(The built-in `String` operations are avoided throughout in favour of
these character-list implementations, which the kernel evaluates.) -/
def listIsPrefix : List Char → List Char → Bool
  | [], _ => true
  | _ :: _, [] => false
  | p :: ps, c :: cs => p == c && listIsPrefix ps cs

/-- Python `str.startswith`. -/
def pyStartsWith (s p : String) : Bool :=
  listIsPrefix p.toList s.toList

/-- Python `str.endswith`. -/
def pyEndsWith (s p : String) : Bool :=
  listIsPrefix p.toList.reverse s.toList.reverse

/-- Drop the first `n` characters. -/
def strDropChars (s : String) (n : Nat) : String :=
  String.mk (s.toList.drop n)

/-- Python `str.strip(chars)`: removes leading AND trailing characters that
occur in `chars` (`_DownloadFormManager.py` line 53 uses it on a CIK). -/
def pyStrip (s : String) (chars : String) : String :=
  let cs := chars.toList
  String.mk (((s.toList.dropWhile (fun c => cs.contains c)).reverse.dropWhile
    (fun c => cs.contains c)).reverse)

/-- The ASCII whitespace characters Python `str.strip()` removes (the
repository never feeds it non-ASCII whitespace). -/
def isPyWs (c : Char) : Bool :=
  c == ' ' || c == '\t' || c == '\n' || c == '\r'

/-- Python `str.strip()` (no argument): trim surrounding whitespace. -/
def pyTrim (s : String) : String :=
  String.mk (((s.toList.dropWhile isPyWs).reverse.dropWhile isPyWs).reverse)

/-- Python `str.upper` on one character (ASCII; the directory tickers and
caller symbols are ASCII). -/
def pyUpperChar (c : Char) : Char :=
  if 97 ≤ c.toNat ∧ c.toNat ≤ 122 then Char.ofNat (c.toNat - 32) else c

/-- Python `str.upper`. -/
def pyUpper (s : String) : String :=
  String.mk (s.toList.map pyUpperChar)

/-- Python `str.zfill(width)`: left-pad with zeros to `width`, keeping a
leading sign character in front of the padding. -/
def pyZfill (s : String) (width : Nat) : String :=
  if width ≤ s.length then s
  else
    let signed := pyStartsWith s "-" || pyStartsWith s "+"
    let sign := if signed then String.mk [s.toList.headD '-'] else ""
    let rest := if signed then strDropChars s 1 else s
    sign ++ String.mk (List.replicate (width - s.length) '0') ++ rest

/-- Whether CPython `int(s)` succeeds on an already-stripped string: an
optional sign followed by a nonempty run of digits (exotic forms such as
digit-group underscores or non-ASCII digits are outside the model). -/
def pyIntParses (s : String) : Bool :=
  let core := if pyStartsWith s "-" || pyStartsWith s "+" then strDropChars s 1 else s
  decide (0 < core.length) && core.toList.all Char.isDigit

/-- Split a character list at every occurrence of `c`, as Python
`str.split(sep)` for a one-character separator (the accumulator holds the
current piece reversed). -/
def splitOnCharAux (c : Char) : List Char → List Char → List (List Char)
  | [], cur => [cur.reverse]
  | x :: xs, cur =>
    if x == c then cur.reverse :: splitOnCharAux c xs []
    else splitOnCharAux c xs (x :: cur)

/-- Python `str.split(sep)` for a one-character separator. -/
def splitOnChar (c : Char) (s : String) : List String :=
  (splitOnCharAux c s.toList []).map String.mk

/-- The numeric value of an all-digit character list. -/
def digitsToNat (l : List Char) : Nat :=
  l.foldl (fun n c => n * 10 + (c.toNat - 48)) 0

/-- Parse a nonempty all-digit string as a natural number. -/
def strToNat? (s : String) : Option Nat :=
  if s.toList ≠ [] ∧ s.toList.all Char.isDigit then some (digitsToNat s.toList)
  else none

/-- Python `str.replace` on character lists: replace non-overlapping
occurrences of `pat` left to right.  Structural recursion on a fuel that
`pyReplace` passes as the input length; every step consumes at least one
input character, so the fuel never runs out at a call site (our call
sites never pass an empty pattern; that case is given a harmless
meaning). -/
def pyReplaceChars (pat repl : List Char) : Nat → List Char → List Char
  | 0, l => l
  | _ + 1, [] => []
  | n + 1, c :: rest =>
    if pat.length = 0 then c :: rest
    else if listIsPrefix pat (c :: rest) then
      repl ++ pyReplaceChars pat repl n (rest.drop (pat.length - 1))
    else
      c :: pyReplaceChars pat repl n rest

/-- Python `str.replace(pat, repl)`. -/
def pyReplace (s pat repl : String) : String :=
  String.mk (pyReplaceChars pat.toList repl.toList s.toList.length s.toList)

/-- Index of the last occurrence of `c`, as Python `str.rfind`. -/
def lastIndexOf : List Char → Char → Option Nat
  | [], _ => none
  | x :: xs, c =>
    match lastIndexOf xs c with
    | some i => some (i + 1)
    | none => if x == c then some 0 else none

/-- The final path component, as `pathlib.PurePath(...).name` for the
POSIX-style member/document names used by the repository. -/
def pathName (s : String) : String :=
  (splitOnChar '/' s).reverse.headD s

/-- `pathlib.PurePath(...).suffix`: the extension of the final component,
`name.drop i` for the last dot index `i` when `0 < i < name.length - 1`,
otherwise the empty string. -/
def pathSuffix (s : String) : String :=
  let nm := pathName s
  match lastIndexOf nm.toList '.' with
  | some i => if 0 < i ∧ i + 1 < nm.length then strDropChars nm i else ""
  | none => ""

/-- A calendar date, the model of Python `datetime.date`.  Comparison on
`datetime.date` is lexicographic on (year, month, day). -/
structure Date where
  year : Nat
  month : Nat
  day : Nat
deriving DecidableEq, Repr

/-- `a < b` on dates, lexicographic as in Python. -/
def Date.blt (a b : Date) : Bool :=
  Nat.blt a.year b.year ||
    (Nat.beq a.year b.year &&
      (Nat.blt a.month b.month ||
        (Nat.beq a.month b.month && Nat.blt a.day b.day)))

/-- `a <= b` on dates. -/
def Date.ble (a b : Date) : Bool :=
  Date.blt a b || a == b

/-- Python `max` on two dates (ties pick the first argument, as CPython). -/
def maxDate (a b : Date) : Date :=
  if Date.ble b a then a else b

/-- Gregorian leap-year test (as `datetime` uses). -/
def isLeapYear (y : Nat) : Bool :=
  (y % 4 == 0 && y % 100 != 0) || y % 400 == 0

/-- Days in a month, as `datetime` validates them. -/
def daysInMonth (y m : Nat) : Nat :=
  if m = 2 then (if isLeapYear y then 29 else 28)
  else if m = 4 ∨ m = 6 ∨ m = 9 ∨ m = 11 then 30
  else 31

/-- `datetime.strptime(s, "%Y-%m-%d").date()`: three dash-separated
all-digit components (year up to 4 digits, month and day up to 2, both
allowed unpadded by `strptime`), range-checked as `datetime` does.
`none` models the `ValueError` raised on any other input. -/
def parseDateYMD (s : String) : Option Date :=
  match splitOnChar '-' s with
  | [ys, ms, ds] =>
    match strToNat? ys, strToNat? ms, strToNat? ds with
    | some y, some m, some d =>
      if 0 < ys.length ∧ ys.length ≤ 4 ∧ 0 < ms.length ∧ ms.length ≤ 2 ∧
          0 < ds.length ∧ ds.length ≤ 2 ∧ 1 ≤ m ∧ m ≤ 12 ∧ 1 ≤ d ∧
          d ≤ daysInMonth y m then
        some ⟨y, m, d⟩
      else none
    | _, _, _ => none
  | _ => none

/-- The Python exceptions raised by the modelled code paths. -/
inductive PyErr where
  | valueError (msg : String)
  | typeError (msg : String)
  | keyError (key : String)
  | indexError
deriving DecidableEq, Repr

/-- Association-list lookup, the model of `d[k]` / `d.get(k)` on a Python
dict (keys are unique in every dict the code builds). -/
def dictLookup {α : Type} : List (String × α) → String → Option α
  | [], _ => none
  | (k', v) :: rest, k => if k' = k then some v else dictLookup rest k

/-- Python dict insertion `d[k] = v`: updates the value in place if the key
exists (keeping its position), otherwise appends. -/
def dictInsert {α : Type} (k : String) (v : α) : List (String × α) → List (String × α)
  | [] => [(k, v)]
  | (k', v') :: rest =>
    if k' = k then (k, v) :: rest else (k', v') :: dictInsert k v rest

/-- `d.keys()` in iteration order. -/
def dictKeys {α : Type} (d : List (String × α)) : List String :=
  d.map Prod.fst

/-- `d.values()` in iteration order. -/
def dictValues {α : Type} (d : List (String × α)) : List α :=
  d.map Prod.snd

/-- Python `list.index` as an option (`none` models the `ValueError`). -/
def listIndexOf : List String → String → Option Nat
  | [], _ => none
  | x :: xs, y => if x = y then some 0 else (listIndexOf xs y).map (fun i => i + 1)

/-- Effectful map over a list that stops at the first failure; the model of
a Python loop/comprehension in which each element access may raise. -/
def optionMapM {α β : Type} (f : α → Option β) : List α → Option (List β)
  | [] => some []
  | x :: xs =>
    match f x with
    | none => none
    | some y =>
      match optionMapM f xs with
      | none => none
      | some ys => some (y :: ys)

/-- Concatenation of a list of lists, as `itertools.chain.from_iterable`. -/
def flattenLists {α : Type} : List (List α) → List α
  | [] => []
  | l :: ls => l ++ flattenLists ls

/-- Modelled from the spec: `CIK_LENGTH` lives in the missing `_constants`
module; the spec glossary fixes the canonical identifier width at 10
digits, which also matches the hard-coded bound in `_utils.is_cik`. -/
def CIK_LENGTH : Nat := 10

/-- `_utils.is_cik`: `int(cik)` succeeds and `1 <= len(cik) <= 10`. -/
def is_cik (cik : String) : Bool :=
  pyIntParses cik && Nat.ble 1 cik.length && Nat.ble cik.length 10

/-- `_utils.validate_and_parse_date`: parse `"%Y-%m-%d"` or raise
`ValueError` with a custom message (the `TypeError` branch concerns
non-string input, which the `String` argument type excludes). -/
def validate_and_parse_date (date_format : String) : Except PyErr Date :=
  match parseDateYMD date_format with
  | some d => Except.ok d
  | none =>
    Except.error (PyErr.valueError
      "Incorrect date format. Please enter a date string of the form YYYY-MM-DD.")

/-- `_utils.get_valid_after_date`: default when `after` is `None`,
otherwise parse it; the source then returns `max(after_date, after_date)`,
a self-max of the freshly parsed value (the spec flags this no-op). -/
def get_valid_after_date (after : Option String) (after_date : Date) : Except PyErr Date :=
  match after with
  | none => Except.ok after_date
  | some a =>
    match validate_and_parse_date a with
    | Except.error e => Except.error e
    | Except.ok parsed => Except.ok (maxDate parsed parsed)

/-- `_utils.validate_and_return_cik`: strip/uppercase, reject blanks,
detect numeric CIKs (zero-pad and require membership among the mapping
values), otherwise look the ticker up in the mapping. -/
def validate_and_return_cik (ticker_or_cik : String)
    (ticker_to_cik_mapping : List (String × String)) : Except PyErr String :=
  let t := pyUpper (pyTrim ticker_or_cik)
  if t = "" then
    Except.error (PyErr.valueError "Invalid ticker or CIK. Please enter a non-blank value.")
  else if is_cik t then
    if CIK_LENGTH < t.length then
      Except.error (PyErr.valueError "Invalid CIK. CIKs must be at most 10 digits long.")
    else
      let cik := pyZfill t CIK_LENGTH
      if (dictValues ticker_to_cik_mapping).contains cik then Except.ok cik
      else Except.error (PyErr.valueError "Invalid CIK. Not present in the CIK to ticker mapping.")
  else
    match dictLookup ticker_to_cik_mapping t with
    | some cik => Except.ok cik
    | none =>
      Except.error (PyErr.valueError
        "Ticker is invalid and cannot be mapped to a CIK. Please enter a valid ticker or CIK.")

/-- `SubmissionsType`: a page of parallel arrays, keyed by column name. -/
abbrev SubmissionsType := List (String × List String)

/-- `_utils.merge_submission_dicts`: for each key of the FIRST dict, the
concatenation of that key in every dict, in list order.  `none` models
the `IndexError` on an empty argument and the `KeyError` when a later dict
lacks a key of the first. -/
def merge_submission_dicts (to_merge : List SubmissionsType) : Option SubmissionsType :=
  match to_merge with
  | [] => none
  | first :: rest =>
    optionMapM (fun k =>
      match optionMapM (fun d => dictLookup d k) (first :: rest) with
      | none => none
      | some lists => some (k, flattenLists lists)) (dictKeys first)

/-- `_types.FormsDownloadMetadata`.  `limit` is `Nat` (the source default
is `sys.maxsize` and the caller rejects values below 1 before building
this record); `ticker` is optional because `EdgarClient` passes
`cik_to_ticker_mapping.get(cik, None)`. -/
structure FormsDownloadMetadata where
  download_folder : String
  forms : List String
  cik : String
  ticker : Option String
  limit : Nat
  after : Date
  before : Date
  include_amends : Bool
  download_details : Bool
deriving DecidableEq, Repr

/-- `_utils.within_requested_date_range`: the filing date (already parsed
from its `"%Y-%m-%d"` wire form; the parse of a well-formed date string is
abstracted to the `Date` value) lies in the inclusive window. -/
def within_requested_date_range (download_metadata : FormsDownloadMetadata)
    (filing_date : Date) : Bool :=
  Date.ble download_metadata.after filing_date &&
    Date.ble filing_date download_metadata.before

/-- `_types.FormToDownload` (the FilingDescriptor of the spec). -/
structure FormToDownload where
  form : String
  raw_filing_uri : String
  primary_doc_uri : String
  accession_number : String
  details_doc_suffix : String
deriving DecidableEq, Repr

/-- Modelled from the spec: `AMENDS_SUFFIX` lives in the missing
`_constants` module; the spec calls it "the amendment suffix" carried by
amended form types (10-K/A and the like), so it is the `/A` tail.  No
claim depends on its exact text. -/
def AMENDS_SUFFIX : String := "/A"

/-- Modelled from the spec: `URL_FILING` lives in the missing `_constants`
module.  Spec section 6 describes raw/detail documents addressed under the
archive by identifier, dashless accession segment and document name; the
template is modelled as those three path segments.  No claim depends on
the surrounding fixed text. -/
def URL_FILING_format (cik acc_num_no_dash document : String) : String :=
  "https://www.sec.gov/Archives/edgar/data/" ++ cik ++ "/" ++ acc_num_no_dash
    ++ "/" ++ document

/-- `_DownloadFormManager.get_to_download` (source lines 52-58): strips
zeros from the cik with `str.strip("0")`, removes dashes from the
accession number, builds both URIs, and takes
`Path(doc).suffix.replace("htm", "html")` as the detail suffix. -/
def get_to_download (cik acc_num form doc : String) : FormToDownload :=
  let cik2 := pyStrip cik "0"
  let acc_num_no_dash := pyReplace acc_num "-" ""
  let raw_filing_uri := URL_FILING_format cik2 acc_num_no_dash (acc_num ++ ".txt")
  let primary_doc_uri := URL_FILING_format cik2 acc_num_no_dash doc
  let primary_doc_suffix := pyReplace (pathSuffix doc) "htm" "html"
  ⟨form, raw_filing_uri, primary_doc_uri, acc_num, primary_doc_suffix⟩

/-- One zipped row of a submissions page: the aggregator iterates
`zip(accessionNumber, form, primaryDocument, filingDate, strict=True)`;
the four parallel arrays are modelled already zipped (their equal length
is the page shape invariant), with the filing date as a parsed value. -/
structure SubRow where
  accessionNumber : String
  form : String
  primaryDocument : String
  filingDate : Date
deriving DecidableEq, Repr

/-- The row filter of `aggregate_forms_to_download` (source lines 91-93):
the row is skipped when the form is not requested, or it is an amendment
while amendments are excluded, or the filing date is out of range; this
function is the negation of that skip condition. -/
def rowPasses (dm : FormsDownloadMetadata) (r : SubRow) : Bool :=
  !(!(dm.forms.contains r.form) ||
      (!dm.include_amends && pyEndsWith r.form AMENDS_SUFFIX) ||
      !(within_requested_date_range dm r.filingDate))

/-- State after scanning (a prefix of) one page's rows. -/
structure PageScan where
  acc : List FormToDownload
  cnt : Nat
  reached : Bool
deriving DecidableEq, Repr

/-- The inner `for` loop over one page (source lines 90-99): append every
passing row and return early (`reached := true`) the moment the running
count equals the limit. -/
def processRows (dm : FormsDownloadMetadata) :
    List SubRow → List FormToDownload → Nat → PageScan
  | [], acc, cnt => ⟨acc, cnt, false⟩
  | r :: rs, acc, cnt =>
    if rowPasses dm r then
      let acc2 := acc ++ [get_to_download dm.cik r.accessionNumber r.form r.primaryDocument]
      let cnt2 := cnt + 1
      if cnt2 = dm.limit then ⟨acc2, cnt2, true⟩
      else processRows dm rs acc2 cnt2
    else processRows dm rs acc cnt

/-- The `while` loop of `aggregate_forms_to_download` (source lines
75-103).  `pages` is the sequence of page bodies the network would return:
the first response's `filings.recent` followed by the continuation pages
in queue order (`filings.files`); `filings_available` in the source is
initialised `True` and never written, so the loop condition reduces to
`fetched_count < limit`.  Returns the accumulated descriptors and the
number of page requests issued. -/
def aggregateLoop (dm : FormsDownloadMetadata) :
    List (List SubRow) → List FormToDownload → Nat → List FormToDownload × Nat
  | [], acc, _ => (acc, 0)
  | page :: rest, acc, cnt =>
    if cnt < dm.limit then
      let s := processRows dm page acc cnt
      if s.reached then (s.acc, 1)
      else
        let r := aggregateLoop dm rest s.acc s.cnt
        (r.1, r.2 + 1)
    else (acc, 0)

/-- `DownloadFormManager.aggregate_forms_to_download` (source lines
66-104), starting from an empty descriptor list and a zero count. -/
def aggregate_forms_to_download (dm : FormsDownloadMetadata)
    (pages : List (List SubRow)) : List FormToDownload × Nat :=
  aggregateLoop dm pages [] 0

/-- The number of rows of one page accepted by the filter. -/
def countAccepted (dm : FormsDownloadMetadata) (page : List SubRow) : Nat :=
  (page.filter (rowPasses dm)).length

/-- Accepted rows over the first `k` pages. -/
def acceptedUpTo (dm : FormsDownloadMetadata) (pages : List (List SubRow))
    (k : Nat) : Nat :=
  ((pages.take k).map (countAccepted dm)).sum

/-- The directory response of the ticker endpoint:
`{fields: [...], data: [[...], ...]}` with every cell as its `str(...)`
image (the source wraps each access in `str`). -/
structure TickerMetadata where
  fields : List String
  data : List (List String)
deriving DecidableEq, Repr

/-- The dict comprehension of `get_ticker_cik_name_mapping` building
`ticker_to_cik` (source line 133): uppercased ticker cell to zero-padded
cik cell, later rows overwriting earlier ones; `indexError` models a row
shorter than the used column index. -/
def buildTickerToCik (cik_idx ticker_idx : Nat) :
    List (List String) → List (String × String) → Except PyErr (List (String × String))
  | [], acc => Except.ok acc
  | td :: rest, acc =>
    match td.get? ticker_idx, td.get? cik_idx with
    | some tk, some ck =>
      buildTickerToCik cik_idx ticker_idx rest
        (dictInsert (pyUpper tk) (pyZfill ck CIK_LENGTH) acc)
    | _, _ => Except.error PyErr.indexError

/-- `DownloadFormManager.get_ticker_cik_name_mapping` (source lines
123-137).  Note the source computes `name_idx` but never uses it: both
`cik_to_ticker` (line 134) and `cik_to_name` (line 135) are built from the
`(ticker, cik)` item pairs of `ticker_to_cik`; on line 135 the binder
called `name` is in fact the ticker key.  The missing-field case models
the `ValueError` of `list.index`. -/
def get_ticker_cik_name_mapping (ticker_metadata : TickerMetadata) :
    Except PyErr (List (String × String) × List (String × String) × List (String × String)) :=
  match listIndexOf ticker_metadata.fields "cik",
      listIndexOf ticker_metadata.fields "ticker",
      listIndexOf ticker_metadata.fields "name" with
  | some cik_idx, some ticker_idx, some _name_idx =>
    match buildTickerToCik cik_idx ticker_idx ticker_metadata.data [] with
    | Except.error e => Except.error e
    | Except.ok ticker_to_cik =>
      let cik_to_ticker :=
        ticker_to_cik.foldl (fun acc p => dictInsert p.2 p.1 acc) []
      let cik_to_name :=
        ticker_to_cik.foldl (fun acc p => dictInsert p.2 p.1 acc) []
      Except.ok (ticker_to_cik, cik_to_ticker, cik_to_name)
  | _, _, _ => Except.error (PyErr.valueError "substring not found")

/-- What `self._session.get(url, ...)` does for one request, as seen by
`_rate_limited_get`: either the call itself raises (connection failure, or
the adapter-level retry policy exhausts and raises), or a response with a
final status code and URL comes back. -/
inductive GetOutcome where
  | raised (exc : String)
  | response (status_code : Nat) (url : String)
deriving DecidableEq, Repr

/-- The response object fields `_rate_limited_get` reads. -/
structure HttpResponse where
  status_code : Nat
  url : String
deriving DecidableEq, Repr

/-- Errors escaping `_rate_limited_get`: either the structured
`EdgarAPIError` of `EdgarAPIError.py` (origin exception text, status code
if any, request URL) or a bare `requests` transport exception. -/
inductive TransportError where
  | bare (exc : String)
  | edgarAPIError (origin : String) (status_code : Option Nat) (url : String)
deriving DecidableEq, Repr

/-- Discriminator: is this the structured error type? -/
def isEdgarAPIError : TransportError → Bool
  | TransportError.edgarAPIError _ _ _ => true
  | TransportError.bare _ => false

/-- The text of the `requests.exceptions.HTTPError` that
`Response.raise_for_status` raises for a 4xx/5xx status. -/
def httpErrorString (status_code : Nat) (url : String) : String :=
  (if status_code < 500 then "Client Error" else "Server Error")
    ++ " for url " ++ url

/-- `BaseClient._rate_limited_get` (source lines 50-73): the `GET` call is
OUTSIDE the `try`, so an exception it raises propagates as-is; only
`raise_for_status` (which raises exactly for statuses in [400, 600)) is
wrapped into `EdgarAPIError(exception=e, status_code=resp.status_code,
url=resp.url)`. -/
def _rate_limited_get (outcome : GetOutcome) : Except TransportError HttpResponse :=
  match outcome with
  | GetOutcome.raised exc => Except.error (TransportError.bare exc)
  | GetOutcome.response status url =>
    if 400 ≤ status ∧ status < 600 then
      Except.error (TransportError.edgarAPIError (httpErrorString status url) (some status) url)
    else Except.ok ⟨status, url⟩

/-- One disclosure event record: the JSON object's fields in order, values
as strings (their content is never inspected by the modelled code). -/
abbrev FactEvent := List (String × String)

/-- One unit key with its list of disclosure events:
`taxonomies[t][g]["units"][u]`. -/
structure UnitNode where
  unit : String
  events : List FactEvent
deriving DecidableEq, Repr

/-- One tag with its units dict (`taxonomies[t][g]["units"]`; the constant
`"units"` indirection is inlined). -/
structure TagNode where
  tag : String
  units : List UnitNode
deriving DecidableEq, Repr

/-- One taxonomy with its tags dict. -/
structure TaxonomyNode where
  taxonomy : String
  tags : List TagNode
deriving DecidableEq, Repr

/-- A company fact document: `cik`, `entityName` and the
taxonomy → tag → unit → events nesting. -/
structure FactsJson where
  cik : String
  entityName : String
  facts : List TaxonomyNode
deriving DecidableEq, Repr

/-- One (taxonomy, tag, unit) triple with its event list. -/
structure UnitEntry where
  taxonomy : String
  tag : String
  unit : String
  events : List FactEvent
deriving DecidableEq, Repr

/-- The triple `for` nest of `parse_facts_json` / `_parse_open_json`
flattened in visit order (taxonomies outermost, units innermost). -/
def unitsOfFacts (facts : List TaxonomyNode) : List UnitEntry :=
  flattenLists (facts.map (fun tx =>
    flattenLists (tx.tags.map (fun tg =>
      tg.units.map (fun u => ⟨tx.taxonomy, tg.tag, u.unit, u.events⟩)))))

/-- The column set of `pd.DataFrame(list-of-dicts)`: the union of the row
key sets, in order of first appearance. -/
def dfColumns (rows : List FactEvent) : List String :=
  rows.foldl (fun acc r => acc ++ (r.map Prod.fst).filter (fun k => !(acc.contains k))) []

/-- `ALLOWED_DATA_COLUMNS` of `EdgarClient.parse_facts_json` (line 523). -/
def ALLOWED_DATA_COLUMNS : List String :=
  ["start", "end", "val", "accn", "fy", "fp", "form", "filed", "frame"]

/-- The two columns the normalizer may backfill. -/
def STARTFRAME : List String := ["start", "frame"]

/-- The core columns a unit table is missing:
`set(ALLOWED_DATA_COLUMNS) - set(events_df.columns)` (in the fixed
`ALLOWED_DATA_COLUMNS` order; CPython set iteration order is
unspecified and no claim depends on it). -/
def unitMissing (rows : List FactEvent) : List String :=
  ALLOWED_DATA_COLUMNS.filter (fun c => !((dfColumns rows).contains c))

/-- Failures of `parse_facts_json`: `schemaError` models the
`logger.critical` + `exit()` hard stop on a disallowed missing column (the
spec's SchemaError), `concatError` the `ValueError` that `pd.concat`
raises on an empty dataframe list. -/
inductive FactsParseErr where
  | schemaError (missing : List String)
  | concatError
deriving DecidableEq, Repr

/-- One normalized per-unit table: the multi-index prefix
(taxonomy, tag, unit), the final column list (original dataframe columns
plus any backfilled ones) and the event rows; a backfilled column has no
key in any row, so every cell of it reads as the absent marker
(`dictLookup row c = none`, the model of `np.nan`). -/
structure UnitTable where
  taxonomy : String
  tag : String
  unit : String
  columns : List String
  rows : List FactEvent
deriving DecidableEq, Repr

/-- The per-unit body of `parse_facts_json` (source lines 528-550): build
the dataframe, and unless every core column is present, compute the
missing set; a missing column outside start/frame is the fatal schema
stop, otherwise the missing columns are appended as all-absent columns. -/
def processUnit (taxonomy tag unit : String) (rows : List FactEvent) :
    Except FactsParseErr UnitTable :=
  let cols := dfColumns rows
  if ALLOWED_DATA_COLUMNS.all (fun c => cols.contains c) then
    Except.ok ⟨taxonomy, tag, unit, cols, rows⟩
  else
    let missing := ALLOWED_DATA_COLUMNS.filter (fun c => !(cols.contains c))
    if missing.all (fun c => STARTFRAME.contains c) then
      Except.ok ⟨taxonomy, tag, unit, cols ++ missing, rows⟩
    else Except.error (FactsParseErr.schemaError missing)

/-- The full loop nest of `parse_facts_json` over the flattened unit list,
stopping at the first fatal unit exactly as the Python loop does. -/
def buildTables : List UnitEntry → Except FactsParseErr (List UnitTable)
  | [] => Except.ok []
  | q :: rest =>
    match processUnit q.taxonomy q.tag q.unit q.events with
    | Except.error e => Except.error e
    | Except.ok t =>
      match buildTables rest with
      | Except.error e => Except.error e
      | Except.ok ts => Except.ok (t :: ts)

/-- `EdgarClient.parse_facts_json` (source lines 518-554): normalize every
unit, then `pd.concat(dataframes, axis=1)`, which raises when the list is
empty (the trailing `sort_index()` only reorders rows and is not
modelled). -/
def parse_facts_json (json_dict : FactsJson) : Except FactsParseErr (List UnitTable) :=
  match buildTables (unitsOfFacts json_dict.facts) with
  | Except.error e => Except.error e
  | Except.ok dataframes =>
    if dataframes.isEmpty then Except.error FactsParseErr.concatError
    else Except.ok dataframes

/-- The worker arguments of `EdgarClient._parse_open_json`:
`member_json = none` models `json.load` raising on a malformed member,
`zip_date` is the `\d4-\d2-\d2` match in the archive file name (`none`
when the regex finds nothing), `existing_files` the set of paths for which
`os.path.exists` answers true. -/
structure ParseOpenArgs where
  filename : String
  zip_date : Option String
  member_json : Option FactsJson
  ticker_to_cik_mapping : List (String × String)
  cik_to_ticker_mapping : List (String × String)
  facts_save_folder : String
  existing_files : List String
deriving DecidableEq, Repr

/-- What one `_parse_open_json` run did: whether `json.load` was invoked
on the member (it is the first statement of the `try` block, so it runs
on every path), and the output path written, if any. -/
structure ParseOpenResult where
  json_loaded : Bool
  wrote : Option String
deriving DecidableEq, Repr

/-- `EdgarClient._parse_open_json` (source lines 464-503): load the JSON,
resolve the embedded cik to a ticker, build the dated output path, skip if
it exists, otherwise assemble the per-unit dataframes and write the pickle
(`pd.concat` raises on an empty list; every exception is caught by the
worker's `except` and turned into a no-write return). -/
def _parse_open_json (a : ParseOpenArgs) : ParseOpenResult :=
  match a.member_json with
  | none => ⟨true, none⟩
  | some data =>
    match validate_and_return_cik data.cik a.ticker_to_cik_mapping with
    | Except.error _ => ⟨true, none⟩
    | Except.ok cik =>
      match dictLookup a.cik_to_ticker_mapping cik with
      | none => ⟨true, none⟩
      | some ticker =>
        match a.zip_date with
        | none => ⟨true, none⟩
        | some date =>
          let output_file_path :=
            a.facts_save_folder ++ "/" ++ ticker ++ "_facts-" ++ date ++ ".pkl"
          if a.existing_files.contains output_file_path then ⟨true, none⟩
          else if (unitsOfFacts data.facts).isEmpty then ⟨true, none⟩
          else ⟨true, some output_file_path⟩

/-- `sys.maxsize` on the CPython builds the source targets. -/
def sys_maxsize : Int := 9223372036854775807

/-- `limit = sys.maxsize if limit is None else int(limit)`. -/
def limitToInt (limit : Option Int) : Int :=
  match limit with
  | none => sys_maxsize
  | some l => l

/-- The client state `download_forms_by_company` reads, plus the page
bodies the network would return (`supported_forms`, the default window
dates and the download folder live in the missing `_constants` module and
are carried here as parameters; no claim depends on their values). -/
structure EdgarEnv where
  ticker_to_cik_mapping : List (String × String)
  cik_to_ticker_mapping : List (String × String)
  supported_forms : List String
  default_after_date : Date
  default_before_date : Date
  parent_download_folder : String
  pages : List (List SubRow)
deriving Repr

/-- `before_date = DEFAULT_BEFORE_DATE if before is None else
validate_and_parse_date(before)`. -/
def beforeDateOf (before : Option String) (env : EdgarEnv) : Except PyErr Date :=
  match before with
  | none => Except.ok env.default_before_date
  | some b => validate_and_parse_date b

/-- `DownloadFormManager.fetch_and_save_filings` (source lines 106-121)
reduced to its request accounting: the aggregated descriptors, the page
requests the aggregation issued, and the document requests of the
download loop (one raw filing each, plus one primary document each when
details are requested; every fetch and write succeeds in the model). -/
def fetch_and_save_filings (dm : FormsDownloadMetadata)
    (pages : List (List SubRow)) : Nat × Nat × Nat :=
  let r := aggregate_forms_to_download dm pages
  (r.1.length, r.2, r.1.length * (if dm.download_details then 2 else 1))

/-- The observable outcome of one `download_forms_by_company` call: the
returned count or the raised exception, and how many page and document
requests went out. -/
structure DownloadCallResult where
  outcome : Except PyErr Nat
  pages_fetched : Nat
  documents_fetched : Nat
deriving Repr

/-- `EdgarClient.download_forms_by_company` (source lines 199-260):
resolve the caller reference against the preloaded mapping (no network),
check `limit < 1`, parse the window dates, check `after > before`, check
every form against the supported set, and only then run the aggregation
and download pipeline; each validation failure raises `ValueError` with
zero requests issued. -/
def download_forms_by_company (env : EdgarEnv) (ticker_or_cik : String)
    (form_types : List String) (limit : Option Int)
    (after before : Option String) (include_amends download_details : Bool) :
    DownloadCallResult :=
  match validate_and_return_cik ticker_or_cik env.ticker_to_cik_mapping with
  | Except.error e => ⟨Except.error e, 0, 0⟩
  | Except.ok cik =>
    let ticker := dictLookup env.cik_to_ticker_mapping cik
    let lim := limitToInt limit
    if lim < 1 then
      ⟨Except.error (PyErr.valueError "Invalid limit. Please enter a number greater than 1."), 0, 0⟩
    else
      match get_valid_after_date after env.default_after_date with
      | Except.error e => ⟨Except.error e, 0, 0⟩
      | Except.ok after_date =>
        match beforeDateOf before env with
        | Except.error e => ⟨Except.error e, 0, 0⟩
        | Except.ok before_date =>
          if Date.blt before_date after_date then
            ⟨Except.error (PyErr.valueError "After date cannot be greater than the before date."), 0, 0⟩
          else
            let unsupported_forms :=
              form_types.filter (fun f => !(env.supported_forms.contains f))
            if !unsupported_forms.isEmpty then
              ⟨Except.error (PyErr.valueError "Some of the requested forms are not supported."), 0, 0⟩
            else
              let dm : FormsDownloadMetadata :=
                ⟨env.parent_download_folder, form_types, cik, ticker, lim.toNat,
                  after_date, before_date, include_amends, download_details⟩
              let r := fetch_and_save_filings dm env.pages
              ⟨Except.ok r.1, r.2.1, r.2.2⟩

/-! Concrete fixtures used by witnesses and counterexamples. -/

/-- A download request fixture: 10-K forms for a 2020 window, limit 1. -/
def dmFix : FormsDownloadMetadata :=
  ⟨"/data/SEC", ["10-K"], "0000320193", some "AAPL", 1, ⟨2020, 1, 1⟩,
    ⟨2020, 12, 31⟩, false, true⟩

/-- A page row that passes `dmFix`'s filter. -/
def rowFix : SubRow :=
  ⟨"0000320193-20-000096", "10-K", "aapl-20200926.htm", ⟨2020, 10, 30⟩⟩

/-- A second passing row, placed on a continuation page. -/
def rowFix2 : SubRow :=
  ⟨"0000320193-20-000010", "10-K", "aapl-20200328.htm", ⟨2020, 4, 30⟩⟩

/-- A download request fixture with limit 5 for the filter witness. -/
def dmFix5 : FormsDownloadMetadata :=
  ⟨"/data/SEC", ["10-K"], "0000320193", some "AAPL", 5, ⟨2020, 1, 1⟩,
    ⟨2020, 12, 31⟩, false, true⟩

/-- The descriptor built for a cik ending in zero and an `.html` primary
document. -/
def descFix : FormToDownload :=
  get_to_download "0000320190" "0001234567-20-000010" "10-K" "primary.html"

/-- A complete disclosure event (all nine core columns present). -/
def rowFull : FactEvent :=
  [("end", "2020-12-31"), ("val", "100"), ("accn", "0000320193-20-000096"),
    ("fy", "2020"), ("fp", "FY"), ("form", "10-K"), ("filed", "2021-01-15"),
    ("frame", "CY2020"), ("start", "2020-01-01")]

/-- An event missing exactly the `val` column. -/
def rowNoVal : FactEvent :=
  [("end", "2020-12-31"), ("accn", "0000320193-20-000096"), ("fy", "2020"),
    ("fp", "FY"), ("form", "10-K"), ("filed", "2021-01-15"),
    ("frame", "CY2020"), ("start", "2020-01-01")]

/-- An event missing exactly the `start` column. -/
def rowNoStart : FactEvent :=
  [("end", "2020-12-31"), ("val", "100"), ("accn", "0000320193-20-000096"),
    ("fy", "2020"), ("fp", "FY"), ("form", "10-K"), ("filed", "2021-01-15"),
    ("frame", "CY2020")]

/-- A document whose single unit holds a complete event next to an event
with no `val` key: the unit's column union still contains `val`. -/
def docValGap : FactsJson :=
  ⟨"320193", "Apple Inc.",
    [⟨"us-gaap", [⟨"Revenues", [⟨"USD", [rowFull, rowNoVal]⟩]⟩]⟩]⟩

/-- A document whose single unit misses only the `start` column. -/
def docNoStart : FactsJson :=
  ⟨"320193", "Apple Inc.", [⟨"us-gaap", [⟨"Assets", [⟨"USD", [rowNoStart]⟩]⟩]⟩]⟩

/-- Directory response fixture with distinct name and ticker cells. -/
def tickerMetaFix : TickerMetadata :=
  ⟨["cik", "name", "ticker", "exchange"],
    [["320193", "Apple Inc.", "aapl", "Nasdaq"]]⟩

/-- Extraction worker arguments whose computed output path already
exists. -/
def parseOpenArgsFix : ParseOpenArgs :=
  ⟨"CIK0000320193.json", some "2024-01-02", some docNoStart,
    [("AAPL", "0000320193")], [("0000320193", "AAPL")], "facts",
    ["facts/AAPL_facts-2024-01-02.pkl"]⟩

/-- Extraction worker arguments with no pre-existing output. -/
def parseOpenArgsFresh : ParseOpenArgs :=
  ⟨"CIK0000320193.json", some "2024-01-02", some docNoStart,
    [("AAPL", "0000320193")], [("0000320193", "AAPL")], "facts", []⟩

/-- Submissions page fixtures for the merge theorems. -/
def pageRecent : SubmissionsType :=
  [("accessionNumber", ["a1", "a2"]), ("form", ["10-K", "8-K"])]

/-- A continuation page sharing `pageRecent`'s keys. -/
def pageCont : SubmissionsType :=
  [("accessionNumber", ["a3"]), ("form", ["10-Q"])]

/-- A continuation page lacking the `accessionNumber` key. -/
def pageBad : SubmissionsType :=
  [("form", ["10-Q"])]

/-- Client environment fixture for the validation theorem. -/
def envFix : EdgarEnv :=
  ⟨[("AAPL", "0000320193")], [("0000320193", "AAPL")], ["10-K", "10-Q", "8-K"],
    ⟨1994, 1, 1⟩, ⟨2024, 1, 2⟩, "/data/SEC", [[rowFix]]⟩

/-! Theorems. -/

/-- C3 counterexample: a failure raised by the `GET` call itself (here a
connection error; adapter-level retry exhaustion surfaces the same way)
propagates out of `_rate_limited_get` as the bare transport exception and
is not the structured `EdgarAPIError`, refuting "the error surfaced to
the caller is always the single structured error type". -/
theorem C3_counterexample_bare_exception :
    _rate_limited_get (GetOutcome.raised "requests.exceptions.ConnectionError")
      = Except.error (TransportError.bare "requests.exceptions.ConnectionError")
    ∧ isEdgarAPIError (TransportError.bare "requests.exceptions.ConnectionError") = false :=
  ⟨rfl, rfl⟩

/-- C3 (amended): a request whose `GET` completes with an HTTP error
status (400-599) raises the structured `EdgarAPIError` carrying the
origin `HTTPError`, the status code and the request URL; a failure raised
by the `GET` call itself (connection error, adapter-level retry
exhaustion) propagates as the bare transport exception. -/
theorem C3_transport_error_shapes (status : Nat) (url exc : String)
    (h1 : 400 ≤ status) (h2 : status < 600) :
    _rate_limited_get (GetOutcome.response status url)
      = Except.error (TransportError.edgarAPIError (httpErrorString status url)
          (some status) url)
    ∧ _rate_limited_get (GetOutcome.raised exc)
      = Except.error (TransportError.bare exc) := by
  refine ⟨?_, rfl⟩
  simp [_rate_limited_get, h1, h2]

/-- C3 witness: the amended statement at a concrete 503 response and a
concrete retry-exhaustion exception. -/
theorem C3_transport_error_shapes_witness :
    _rate_limited_get (GetOutcome.response 503 "https://data.sec.gov/submissions/CIK0000320193.json")
      = Except.error (TransportError.edgarAPIError
          (httpErrorString 503 "https://data.sec.gov/submissions/CIK0000320193.json")
          (some 503) "https://data.sec.gov/submissions/CIK0000320193.json")
    ∧ _rate_limited_get (GetOutcome.raised "requests.exceptions.RetryError")
      = Except.error (TransportError.bare "requests.exceptions.RetryError") :=
  C3_transport_error_shapes 503 "https://data.sec.gov/submissions/CIK0000320193.json"
    "requests.exceptions.RetryError" (by decide) (by decide)

/-- C6: a zipped page row is accepted by the aggregator's filter exactly
when its form is in the caller's accepted set, it is not an amendment
while amendments are excluded, and its filing date lies in the inclusive
[after, before] window. -/
theorem C6_row_filter_iff (dm : FormsDownloadMetadata) (r : SubRow) :
    rowPasses dm r = true ↔
      (dm.forms.contains r.form = true ∧
        (dm.include_amends = false → pyEndsWith r.form AMENDS_SUFFIX = false) ∧
        Date.ble dm.after r.filingDate = true ∧
        Date.ble r.filingDate dm.before = true) := by
  unfold rowPasses within_requested_date_range
  cases h1 : dm.forms.contains r.form <;>
    cases h2 : dm.include_amends <;>
      cases h3 : pyEndsWith r.form AMENDS_SUFFIX <;>
        cases h4 : Date.ble dm.after r.filingDate <;>
          cases h5 : Date.ble r.filingDate dm.before <;> simp_all

/-- C6 witness: the characterization applied to a concrete accepted row. -/
theorem C6_row_filter_iff_witness :
    dmFix5.forms.contains rowFix.form = true ∧
      (dmFix5.include_amends = false → pyEndsWith rowFix.form AMENDS_SUFFIX = false) ∧
      Date.ble dmFix5.after rowFix.filingDate = true ∧
      Date.ble rowFix.filingDate dmFix5.before = true :=
  (C6_row_filter_iff dmFix5 rowFix).mp (by decide)

/-- C8: the descriptor built for cik "0000320190" (a canonical identifier
whose unpadded form ends in zero) and primary document "primary.html".
`str.strip("0")` removes the trailing zero as well, so both URIs use
"32019" instead of the leading-zeros-stripped "320190"; and
`suffix.replace("htm", "html")` rewrites the ".html" suffix to ".htmll"
instead of leaving non-".htm" suffixes unchanged.  The accession-number
path segment is the dashless accession number, as claimed. -/
theorem C8_descriptor_bug :
    descFix.raw_filing_uri
      = "https://www.sec.gov/Archives/edgar/data/32019/000123456720000010/0001234567-20-000010.txt"
    ∧ descFix.primary_doc_uri
      = "https://www.sec.gov/Archives/edgar/data/32019/000123456720000010/primary.html"
    ∧ descFix.details_doc_suffix = ".htmll"
    ∧ pyStrip "0000320190" "0" = "32019"
    ∧ pathSuffix "primary.html" = ".html"
    ∧ pyReplace "0001234567-20-000010" "-" "" = "000123456720000010" := by
  refine ⟨?_, ?_, ?_, ?_, ?_, ?_⟩ <;> rfl

/-- C9: on a well-formed directory response whose name cell is
"Apple Inc.", the third returned mapping sends the zero-padded identifier
to the uppercased TICKER ("AAPL"), not to the display name: source line
135 builds `cik_to_name` from the `(ticker, cik)` items of
`ticker_to_cik`, and the computed `name_idx` is never used. -/
theorem C9_name_mapping_bug :
    get_ticker_cik_name_mapping tickerMetaFix
      = Except.ok ([("AAPL", "0000320193")], [("0000320193", "AAPL")],
          [("0000320193", "AAPL")])
    ∧ dictLookup [("0000320193", "AAPL")] "0000320193" = some "AAPL"
    ∧ some "AAPL" ≠ some "Apple Inc."
    ∧ tickerMetaFix.data = [["320193", "Apple Inc.", "aapl", "Nasdaq"]] := by
  refine ⟨?_, rfl, ?_, rfl⟩
  · rfl
  · decide

/-- A key listed in `dictKeys` has a `some` lookup. -/
theorem dictLookup_isSome_of_mem {α : Type} :
    ∀ (d : List (String × α)) (k : String), k ∈ dictKeys d →
      (dictLookup d k).isSome = true := by
  intro d
  induction d with
  | nil => intro k hk; simp [dictKeys] at hk
  | cons p rest ih =>
    intro k hk
    cases p with
    | mk k' v =>
      have hk' : k = k' ∨ k ∈ dictKeys rest := by
        have : k ∈ k' :: dictKeys rest := by simpa [dictKeys] using hk
        exact List.mem_cons.mp this
      by_cases hpk : k' = k
      · simp [dictLookup, hpk]
      · have hk2 : k ∈ dictKeys rest := by
          rcases hk' with h | h
          · exact absurd h.symm hpk
          · exact h
        simp only [dictLookup, if_neg hpk]
        exact ih k hk2

/-- A key not listed in `dictKeys` has lookup `none`. -/
theorem dictLookup_eq_none_of_not_mem {α : Type} :
    ∀ (d : List (String × α)) (k : String), k ∉ dictKeys d →
      dictLookup d k = none := by
  intro d
  induction d with
  | nil => intro k _; rfl
  | cons p rest ih =>
    intro k hk
    cases p with
    | mk k' v =>
      have hk' : ¬(k = k' ∨ k ∈ dictKeys rest) := by
        intro hor
        exact hk (by simpa [dictKeys] using List.mem_cons.mpr hor)
      push_neg at hk'
      simp only [dictLookup]
      rw [if_neg (fun he => hk'.1 he.symm)]
      exact ih k hk'.2

/-- If `f` is pointwise `some (v x)` on `l`, the effectful map succeeds
with the pointwise values. -/
theorem optionMapM_pointwise {α β : Type} (f : α → Option β) (v : α → β) :
    ∀ l : List α, (∀ x ∈ l, f x = some (v x)) →
      optionMapM f l = some (l.map v) := by
  intro l
  induction l with
  | nil => intro _; rfl
  | cons a l ih =>
    intro h
    have ha := h a (by simp)
    have hl := ih (fun x hx => h x (by simp [hx]))
    simp [optionMapM, ha, hl]

/-- If some element of `l` maps to `none`, the effectful map fails. -/
theorem optionMapM_eq_none {α β : Type} (f : α → Option β) :
    ∀ l : List α, (∃ x ∈ l, f x = none) → optionMapM f l = none := by
  intro l
  induction l with
  | nil => rintro ⟨x, hx, _⟩; simp at hx
  | cons a l ih =>
    rintro ⟨x, hx, hfx⟩
    rcases List.mem_cons.mp hx with h | h
    · subst h; simp [optionMapM, hfx]
    · cases hfa : f a with
      | none => simp [optionMapM, hfa]
      | some y => simp [optionMapM, hfa, ih ⟨x, h, hfx⟩]

/-- If every produced pair carries its input key, a successful effectful
map over `ks` yields a dict whose key list is exactly `ks`. -/
theorem optionMapM_keys {α : Type} (g : String → Option (String × α)) :
    ∀ (ks : List String) (m : List (String × α)),
      (∀ k p, g k = some p → p.1 = k) → optionMapM g ks = some m →
        dictKeys m = ks := by
  intro ks
  induction ks with
  | nil =>
    intro m _ hm
    simp [optionMapM] at hm
    simp [← hm, dictKeys]
  | cons k ks ih =>
    intro m hg hm
    cases hgk : g k with
    | none => simp [optionMapM, hgk] at hm
    | some p =>
      cases hrec : optionMapM g ks with
      | none => simp [optionMapM, hgk, hrec] at hm
      | some ms =>
        simp [optionMapM, hgk, hrec] at hm
        subst hm
        simp [dictKeys, hg k p hgk, ← ih ms hg hrec, dictKeys]

/-- Looking up a key of `ks` in the dict `ks.map (fun k => (k, v k))`
returns `v` of it. -/
theorem dictLookup_keyed_map {α : Type} (v : String → α) :
    ∀ (ks : List String) (k : String), k ∈ ks →
      dictLookup (ks.map (fun k2 => (k2, v k2))) k = some (v k) := by
  intro ks
  induction ks with
  | nil => intro k hk; simp at hk
  | cons k0 ks ih =>
    intro k hk
    by_cases hk0 : k0 = k
    · subst hk0; simp [dictLookup]
    · rcases List.mem_cons.mp hk with h | h
      · exact absurd h.symm hk0
      · simp only [List.map, dictLookup, if_neg hk0]
        exact ih k h

/-- C7: merging the recent batch with the continuation pages, when every
page supplies every key of the first (recent) page, succeeds and maps
each key to exactly the concatenation of the per-page lists in listed
order — the flat filing order of a single unpaginated response. -/
theorem C7_merge_concatenation (first : SubmissionsType) (rest : List SubmissionsType)
    (h : ∀ d ∈ rest, ∀ k ∈ dictKeys first, (dictLookup d k).isSome = true) :
    ∃ m, merge_submission_dicts (first :: rest) = some m ∧
      ∀ k ∈ dictKeys first,
        dictLookup m k
          = some (flattenLists ((first :: rest).map
              (fun d => (dictLookup d k).getD []))) := by
  have hall : ∀ d ∈ first :: rest, ∀ k ∈ dictKeys first,
      (dictLookup d k).isSome = true := by
    intro d hd k hk
    rcases List.mem_cons.mp hd with hfst | hr
    · subst hfst; exact dictLookup_isSome_of_mem d k hk
    · exact h d hr k hk
  refine ⟨(dictKeys first).map (fun k =>
    (k, flattenLists ((first :: rest).map (fun d => (dictLookup d k).getD [])))), ?_, ?_⟩
  · show merge_submission_dicts (first :: rest) = _
    unfold merge_submission_dicts
    apply optionMapM_pointwise
    intro k hk
    have hinner : optionMapM (fun d => dictLookup d k) (first :: rest)
        = some ((first :: rest).map (fun d => (dictLookup d k).getD [])) := by
      apply optionMapM_pointwise
      intro d hd
      have hs := hall d hd k hk
      cases ho : dictLookup d k with
      | none => rw [ho] at hs; simp at hs
      | some vl => simp [ho]
    simp [hinner]
  · intro k hk
    exact dictLookup_keyed_map _ (dictKeys first) k hk

/-- C7 witness: a recent page plus one continuation page with the same
parallel-array keys. -/
theorem C7_merge_concatenation_witness :
    ∃ m, merge_submission_dicts (pageRecent :: [pageCont]) = some m ∧
      ∀ k ∈ dictKeys pageRecent,
        dictLookup m k
          = some (flattenLists ((pageRecent :: [pageCont]).map
              (fun d => (dictLookup d k).getD []))) :=
  C7_merge_concatenation pageRecent [pageCont] (by decide)

/-- C10: the merged result carries exactly the keys of the first page
dict — a key present only in a later page is dropped — and the merge
fails (raises `KeyError`, modelled `none`) when a later page lacks a key
of the first page. -/
theorem C10_merge_key_domain (first : SubmissionsType) (rest : List SubmissionsType) :
    (∀ m, merge_submission_dicts (first :: rest) = some m →
      dictKeys m = dictKeys first) ∧
    (∀ m, merge_submission_dicts (first :: rest) = some m →
      ∀ k, k ∉ dictKeys first → dictLookup m k = none) ∧
    (∀ k ∈ dictKeys first, ∀ d ∈ rest, dictLookup d k = none →
      merge_submission_dicts (first :: rest) = none) := by
  refine ⟨?_, ?_, ?_⟩
  · intro m hm
    unfold merge_submission_dicts at hm
    refine optionMapM_keys _ (dictKeys first) m ?_ hm
    intro k p hp
    cases hin : optionMapM (fun d => dictLookup d k) (first :: rest) with
    | none => rw [hin] at hp; simp at hp
    | some lists => rw [hin] at hp; simp at hp; exact (congrArg Prod.fst hp.symm)
  · intro m hm k hk
    have hkeys : dictKeys m = dictKeys first := by
      unfold merge_submission_dicts at hm
      refine optionMapM_keys _ (dictKeys first) m ?_ hm
      intro k2 p hp
      cases hin : optionMapM (fun d => dictLookup d k2) (first :: rest) with
      | none => rw [hin] at hp; simp at hp
      | some lists => rw [hin] at hp; simp at hp; exact (congrArg Prod.fst hp.symm)
    exact dictLookup_eq_none_of_not_mem m k (by rw [hkeys]; exact hk)
  · intro k hk d hd hnone
    unfold merge_submission_dicts
    apply optionMapM_eq_none
    refine ⟨k, hk, ?_⟩
    have hin : optionMapM (fun d2 => dictLookup d2 k) (first :: rest) = none :=
      optionMapM_eq_none _ _ ⟨d, by simp [hd], hnone⟩
    simp [hin]

/-- C10 witness: a continuation page lacking the first page's
`accessionNumber` key makes the merge fail. -/
theorem C10_merge_key_domain_witness :
    merge_submission_dicts (pageRecent :: [pageBad]) = none :=
  (C10_merge_key_domain pageRecent [pageBad]).2.2 "accessionNumber" (by decide)
    pageBad (by decide) (by decide)

/-- Accounting for one page scan: starting below the limit with a
consistent accumulator, the scan keeps `acc`/`cnt` consistent, never
exceeds the limit, reports `reached` exactly on hitting it, and otherwise
counts exactly the accepted rows of the page. -/
theorem processRows_spec (dm : FormsDownloadMetadata) :
    ∀ (rows : List SubRow) (acc : List FormToDownload) (cnt : Nat),
      acc.length = cnt → cnt < dm.limit →
      (processRows dm rows acc cnt).acc.length = (processRows dm rows acc cnt).cnt ∧
      (processRows dm rows acc cnt).cnt ≤ dm.limit ∧
      ((processRows dm rows acc cnt).reached = true →
        (processRows dm rows acc cnt).cnt = dm.limit) ∧
      ((processRows dm rows acc cnt).reached = false →
        (processRows dm rows acc cnt).cnt < dm.limit ∧
        (processRows dm rows acc cnt).cnt = cnt + countAccepted dm rows) := by
  intro rows
  induction rows with
  | nil =>
    intro acc cnt hlen hlt
    refine ⟨hlen, Nat.le_of_lt hlt, ?_, ?_⟩
    · intro h; simp [processRows] at h
    · intro _; exact ⟨hlt, by simp [processRows, countAccepted]⟩
  | cons r rs ih =>
    intro acc cnt hlen hlt
    cases hpass : rowPasses dm r with
    | true =>
      by_cases hlim : cnt + 1 = dm.limit
      · have hres : processRows dm (r :: rs) acc cnt
            = ⟨acc ++ [get_to_download dm.cik r.accessionNumber r.form r.primaryDocument],
                cnt + 1, true⟩ := by
          simp [processRows, hpass, hlim]
        rw [hres]
        refine ⟨by simp [hlen], by simp; omega, fun _ => by simp; omega,
          fun h => by simp at h⟩
      · have hres : processRows dm (r :: rs) acc cnt
            = processRows dm rs
                (acc ++ [get_to_download dm.cik r.accessionNumber r.form r.primaryDocument])
                (cnt + 1) := by
          simp [processRows, hpass, hlim]
        have hlt2 : cnt + 1 < dm.limit := by omega
        have h := ih (acc ++ [get_to_download dm.cik r.accessionNumber r.form r.primaryDocument])
          (cnt + 1) (by simp [hlen]) hlt2
        rw [hres]
        refine ⟨h.1, h.2.1, h.2.2.1, fun hr => ?_⟩
        have h4 := h.2.2.2 hr
        refine ⟨h4.1, ?_⟩
        have hcount : countAccepted dm (r :: rs) = countAccepted dm rs + 1 := by
          simp [countAccepted, List.filter, hpass]
        omega
    | false =>
      have hres : processRows dm (r :: rs) acc cnt = processRows dm rs acc cnt := by
        simp [processRows, hpass]
      have h := ih acc cnt hlen hlt
      rw [hres]
      refine ⟨h.1, h.2.1, h.2.2.1, fun hr => ?_⟩
      have h4 := h.2.2.2 hr
      have hcount : countAccepted dm (r :: rs) = countAccepted dm rs := by
        simp [countAccepted, List.filter, hpass]
      omega

/-- Accounting for the page loop: the output never exceeds the limit, and
as soon as the accepted rows of the first `k` fetched pages cover the
remaining budget, no more than `k` pages are fetched. -/
theorem aggregateLoop_spec (dm : FormsDownloadMetadata) :
    ∀ (pages : List (List SubRow)) (acc : List FormToDownload) (cnt : Nat),
      acc.length = cnt → cnt ≤ dm.limit →
      (aggregateLoop dm pages acc cnt).1.length ≤ dm.limit ∧
      ∀ k, dm.limit ≤ cnt + ((pages.take k).map (countAccepted dm)).sum →
        (aggregateLoop dm pages acc cnt).2 ≤ k := by
  intro pages
  induction pages with
  | nil =>
    intro acc cnt hlen hle
    constructor
    · simp [aggregateLoop, hlen, hle]
    · intro k _; simp [aggregateLoop]
  | cons page rest ih =>
    intro acc cnt hlen hle
    by_cases hlt : cnt < dm.limit
    · have hp := processRows_spec dm page acc cnt hlen hlt
      cases hre : (processRows dm page acc cnt).reached with
      | true =>
        have hres : aggregateLoop dm (page :: rest) acc cnt
            = ((processRows dm page acc cnt).acc, 1) := by
          simp [aggregateLoop, hlt, hre]
        rw [hres]
        constructor
        · rw [hp.1, hp.2.2.1 hre]
        · intro k hk
          match k with
          | 0 => simp [List.take] at hk; omega
          | k + 1 => omega
      | false =>
        have h4 := hp.2.2.2 hre
        have hres : aggregateLoop dm (page :: rest) acc cnt
            = ((aggregateLoop dm rest (processRows dm page acc cnt).acc
                  (processRows dm page acc cnt).cnt).1,
               (aggregateLoop dm rest (processRows dm page acc cnt).acc
                  (processRows dm page acc cnt).cnt).2 + 1) := by
          simp [aggregateLoop, hlt, hre]
        have hrec := ih (processRows dm page acc cnt).acc
          (processRows dm page acc cnt).cnt hp.1 (Nat.le_of_lt h4.1)
        rw [hres]
        constructor
        · exact hrec.1
        · intro k hk
          match k with
          | 0 => simp [List.take] at hk; omega
          | k + 1 =>
            have hk2 : dm.limit ≤ (processRows dm page acc cnt).cnt
                + ((rest.take k).map (countAccepted dm)).sum := by
              simp only [List.take_succ_cons, List.map_cons, List.sum_cons] at hk
              omega
            have := hrec.2 k hk2
            omega
    · have hres : aggregateLoop dm (page :: rest) acc cnt = (acc, 0) := by
        simp [aggregateLoop, hlt]
      rw [hres]
      exact ⟨by rw [hlen]; exact hle, fun k _ => Nat.zero_le k⟩

/-- C1: for a limit of at least 1 and any page sequence, the aggregator
returns at most `limit` descriptors, and once the running accepted count
reaches the limit it returns mid-page: whenever the first `k` pages
already contain `limit` accepted rows, at most `k` page requests are
issued, so no further continuation page is fetched. -/
theorem C1_aggregate_limit (dm : FormsDownloadMetadata) (pages : List (List SubRow))
    (hL : 1 ≤ dm.limit) :
    (aggregate_forms_to_download dm pages).1.length ≤ dm.limit ∧
    ∀ k, dm.limit ≤ acceptedUpTo dm pages k →
      (aggregate_forms_to_download dm pages).2 ≤ k := by
  have h := aggregateLoop_spec dm pages [] 0 rfl (Nat.zero_le _)
  exact ⟨h.1, fun k hk => h.2 k (by simpa [acceptedUpTo] using hk)⟩

/-- C1 witness: limit 1 with a matching row on the first of two pages —
at most one descriptor and at most one page request. -/
theorem C1_aggregate_limit_witness :
    1 ≤ dmFix.limit ∧
    (aggregate_forms_to_download dmFix [[rowFix], [rowFix2]]).1.length ≤ dmFix.limit ∧
    (aggregate_forms_to_download dmFix [[rowFix], [rowFix2]]).2 ≤ 1 :=
  ⟨by decide, (C1_aggregate_limit dmFix [[rowFix], [rowFix2]] (by decide)).1,
    (C1_aggregate_limit dmFix [[rowFix], [rowFix2]] (by decide)).2 1 (by decide)⟩

/-- A key of any row appears among the dataframe columns (stated over the
fold of `dfColumns` with an arbitrary starting accumulator). -/
theorem mem_dfColumns_fold :
    ∀ (rows : List FactEvent) (acc : List String) (c : String),
      (c ∈ acc ∨ ∃ r, r ∈ rows ∧ c ∈ dictKeys r) →
      c ∈ List.foldl
        (fun acc2 r => acc2 ++ (r.map Prod.fst).filter (fun k => !(acc2.contains k)))
        acc rows := by
  intro rows
  induction rows with
  | nil =>
    intro acc c h
    rcases h with h | ⟨r, hr, _⟩
    · simpa using h
    · simp at hr
  | cons r rows ih =>
    intro acc c h
    simp only [List.foldl]
    apply ih
    rcases h with h | ⟨r', hr', hc⟩
    · exact Or.inl (List.mem_append_left _ h)
    · rcases List.mem_cons.mp hr' with he | he
      · subst he
        by_cases hmem : c ∈ acc
        · exact Or.inl (List.mem_append_left _ hmem)
        · refine Or.inl (List.mem_append_right _ ?_)
          refine List.mem_filter.mpr ⟨by simpa [dictKeys] using hc, ?_⟩
          simp [hmem]
      · exact Or.inr ⟨r', he, hc⟩

/-- A column outside the dataframe's column union has no key in any row:
every cell of it reads as the absent marker. -/
theorem dictLookup_none_of_not_dfColumn (rows : List FactEvent) (c : String)
    (hc : c ∉ dfColumns rows) : ∀ r ∈ rows, dictLookup r c = none := by
  intro r hr
  apply dictLookup_eq_none_of_not_mem
  intro hkey
  exact hc (mem_dfColumns_fold rows [] c (Or.inr ⟨r, hr, hkey⟩))

/-- When the unit's missing core columns all lie in start/frame,
`processUnit` succeeds, keeps the rows, and its final column list
contains every core column. -/
theorem processUnit_ok (tx tg u : String) (rows : List FactEvent)
    (h : (unitMissing rows).all (fun c => STARTFRAME.contains c) = true) :
    ∃ t, processUnit tx tg u rows = Except.ok t ∧ t.rows = rows ∧
      ∀ c ∈ ALLOWED_DATA_COLUMNS, c ∈ t.columns := by
  unfold processUnit
  by_cases hall : ALLOWED_DATA_COLUMNS.all (fun c => (dfColumns rows).contains c) = true
  · refine ⟨_, by rw [if_pos hall], rfl, ?_⟩
    intro c hc
    have := List.all_eq_true.mp hall c hc
    simpa using this
  · rw [if_neg hall]
    have hmiss : ALLOWED_DATA_COLUMNS.filter (fun c => !((dfColumns rows).contains c))
        = unitMissing rows := rfl
    rw [hmiss, if_pos h]
    refine ⟨_, rfl, rfl, ?_⟩
    intro c hc
    by_cases hin : (dfColumns rows).contains c = true
    · exact List.mem_append_left _ (by simpa using hin)
    · refine List.mem_append_right _ ?_
      unfold unitMissing
      exact List.mem_filter.mpr ⟨hc, by simpa using hin⟩

/-- When some missing core column lies outside start/frame, `processUnit`
is the fatal schema stop carrying the missing set. -/
theorem processUnit_err (tx tg u : String) (rows : List FactEvent)
    (h : (unitMissing rows).all (fun c => STARTFRAME.contains c) = false) :
    processUnit tx tg u rows
      = Except.error (FactsParseErr.schemaError (unitMissing rows)) := by
  unfold processUnit
  have hall : ¬(ALLOWED_DATA_COLUMNS.all (fun c => (dfColumns rows).contains c) = true) := by
    intro hall
    have hempty : unitMissing rows = [] := by
      unfold unitMissing
      apply List.filter_eq_nil_iff.mpr
      intro c hc
      have := List.all_eq_true.mp hall c hc
      simpa using this
    rw [hempty] at h
    simp at h
  rw [if_neg hall]
  have hmiss : ALLOWED_DATA_COLUMNS.filter (fun c => !((dfColumns rows).contains c))
      = unitMissing rows := rfl
  have hnot : ¬((unitMissing rows).all (fun c => STARTFRAME.contains c) = true) := by
    rw [h]; simp
  rw [hmiss, if_neg hnot]

/-- Normalizing a unit list in which every unit's missing columns lie in
start/frame succeeds, one table per unit, each holding all core
columns. -/
theorem buildTables_ok :
    ∀ l : List UnitEntry,
      (∀ q ∈ l, (unitMissing q.events).all (fun c => STARTFRAME.contains c) = true) →
      ∃ ts, buildTables l = Except.ok ts ∧ ts.length = l.length ∧
        ∀ t ∈ ts, ∀ c ∈ ALLOWED_DATA_COLUMNS, c ∈ t.columns := by
  intro l
  induction l with
  | nil => intro _; exact ⟨[], rfl, rfl, by simp⟩
  | cons q rest ih =>
    intro h
    obtain ⟨t, ht, _, hcols⟩ :=
      processUnit_ok q.taxonomy q.tag q.unit q.events (h q (by simp))
    obtain ⟨ts, hts, hlen, hall⟩ := ih (fun x hx => h x (by simp [hx]))
    refine ⟨t :: ts, ?_, by simp [hlen], ?_⟩
    · simp only [buildTables, ht, hts]
    · intro t2 ht2
      rcases List.mem_cons.mp ht2 with he | he
      · subst he; exact hcols
      · exact hall t2 he

/-- Normalizing a unit list containing a unit whose missing columns
escape start/frame stops with a schema error whose missing set escapes
start/frame. -/
theorem buildTables_err :
    ∀ l : List UnitEntry,
      (∃ q ∈ l, (unitMissing q.events).all (fun c => STARTFRAME.contains c) = false) →
      ∃ m, buildTables l = Except.error (FactsParseErr.schemaError m) ∧
        m.all (fun c => STARTFRAME.contains c) = false := by
  intro l
  induction l with
  | nil => rintro ⟨q, hq, _⟩; simp at hq
  | cons q rest ih =>
    rintro ⟨q', hq', hflag⟩
    cases hhead : (unitMissing q.events).all (fun c => STARTFRAME.contains c) with
    | false =>
      refine ⟨unitMissing q.events, ?_, hhead⟩
      simp only [buildTables, processUnit_err q.taxonomy q.tag q.unit q.events hhead]
    | true =>
      obtain ⟨t, ht, _, _⟩ := processUnit_ok q.taxonomy q.tag q.unit q.events hhead
      have hq'rest : q' ∈ rest := by
        rcases List.mem_cons.mp hq' with he | he
        · subst he; rw [hhead] at hflag; exact absurd hflag (by simp)
        · exact he
      obtain ⟨m, hm, hmflag⟩ := ih ⟨q', hq'rest, hflag⟩
      exact ⟨m, by simp only [buildTables, ht, hm], hmflag⟩

/-- C2 counterexample: in `docValGap` the second event of the single unit
has no `val` key, yet `parse_facts_json` succeeds — the source checks the
COLUMN UNION of the unit's dataframe (here `val` is supplied by the first
event), not each row, so a row missing `val` does not raise the schema
stop. -/
theorem C2_row_missing_val_counterexample :
    dictLookup rowNoVal "val" = none
    ∧ (unitsOfFacts docValGap.facts).map UnitEntry.events = [[rowFull, rowNoVal]]
    ∧ ∃ ts, parse_facts_json docValGap = Except.ok ts :=
  ⟨rfl, rfl, ⟨_, rfl⟩⟩

/-- C2 (amended): `parse_facts_json` succeeds, backfilling with the
absent marker, exactly at unit-table granularity: if for every
(taxonomy, tag, unit) table the core columns absent from the COLUMN UNION
of its events all lie in start/frame (and the document has at least one
unit, else the final concat raises), it returns tables that carry all
nine core columns, any column outside a unit's original column union
reading as the absent marker in every row; and if some unit's missing
column set escapes start/frame, it stops with the fatal schema error
carrying that set. -/
theorem C2_normalize_granularity (j : FactsJson) :
    ((∀ q ∈ unitsOfFacts j.facts,
        (unitMissing q.events).all (fun c => STARTFRAME.contains c) = true) →
      unitsOfFacts j.facts ≠ [] →
      ∃ ts, parse_facts_json j = Except.ok ts
        ∧ (∀ t ∈ ts, ∀ c ∈ ALLOWED_DATA_COLUMNS, c ∈ t.columns)
        ∧ (∀ t ∈ ts, ∀ c, c ∉ dfColumns t.rows → ∀ r ∈ t.rows, dictLookup r c = none))
    ∧ ((∃ q ∈ unitsOfFacts j.facts,
        (unitMissing q.events).all (fun c => STARTFRAME.contains c) = false) →
      ∃ m, parse_facts_json j = Except.error (FactsParseErr.schemaError m)
        ∧ m.all (fun c => STARTFRAME.contains c) = false) := by
  constructor
  · intro hok hne
    obtain ⟨ts, hts, hlen, hcols⟩ := buildTables_ok (unitsOfFacts j.facts) hok
    have hne2 : ts.isEmpty = false := by
      cases ts with
      | nil =>
        cases hu : unitsOfFacts j.facts with
        | nil => exact absurd hu hne
        | cons a l => rw [hu] at hlen; simp at hlen
      | cons a l => rfl
    refine ⟨ts, ?_, hcols, ?_⟩
    · unfold parse_facts_json
      rw [hts]
      simp [hne2]
    · intro t _ c hc r hr
      exact dictLookup_none_of_not_dfColumn t.rows c hc r hr
  · intro hbad
    obtain ⟨m, hm, hflag⟩ := buildTables_err (unitsOfFacts j.facts) hbad
    refine ⟨m, ?_, hflag⟩
    unfold parse_facts_json
    rw [hm]

/-- C2 witness: a document whose single unit misses only `start`
normalizes successfully with all core columns present and the backfilled
column reading as the absent marker. -/
theorem C2_normalize_granularity_witness :
    ∃ ts, parse_facts_json docNoStart = Except.ok ts
      ∧ (∀ t ∈ ts, ∀ c ∈ ALLOWED_DATA_COLUMNS, c ∈ t.columns)
      ∧ (∀ t ∈ ts, ∀ c, c ∉ dfColumns t.rows → ∀ r ∈ t.rows, dictLookup r c = none) :=
  (C2_normalize_granularity docNoStart).1 (by decide) (by decide)

/-- C4 counterexample: for a member whose computed output path already
exists, the worker does return without writing, but `json.load` has
already run (`json_loaded = true`): the source parses the member's JSON
(line 472) and resolves the identifier BEFORE the existence check (line
477), refuting "returns immediately without parsing the member's JSON
content". -/
theorem C4_parse_before_skip_counterexample :
    _parse_open_json parseOpenArgsFix = ⟨true, none⟩
    ∧ parseOpenArgsFix.existing_files.contains "facts/AAPL_facts-2024-01-02.pkl" = true
    ∧ parseOpenArgsFix.member_json = some docNoStart :=
  ⟨rfl, rfl, rfl⟩

/-- C4 (amended): the worker always parses its member first
(`json_loaded`), never writes to a path that already exists, and a
re-run over the same member with the first run's output added to the
existing files performs no write — so re-running extraction is
idempotent at the file level, although the skip happens only after the
JSON parse. -/
theorem C4_skip_idempotent (a : ParseOpenArgs) :
    (∀ p, (_parse_open_json a).wrote = some p → p ∉ a.existing_files)
    ∧ (_parse_open_json { a with existing_files :=
        a.existing_files ++ ((_parse_open_json a).wrote.toList) }).wrote = none
    ∧ (_parse_open_json a).json_loaded = true := by
  cases hm : a.member_json with
  | none =>
    refine ⟨?_, ?_, ?_⟩ <;> simp [_parse_open_json, hm]
  | some data =>
    cases hv : validate_and_return_cik data.cik a.ticker_to_cik_mapping with
    | error e =>
      refine ⟨?_, ?_, ?_⟩ <;> simp [_parse_open_json, hm, hv]
    | ok cik =>
      cases ht : dictLookup a.cik_to_ticker_mapping cik with
      | none =>
        refine ⟨?_, ?_, ?_⟩ <;> simp [_parse_open_json, hm, hv, ht]
      | some ticker =>
        cases hd : a.zip_date with
        | none =>
          refine ⟨?_, ?_, ?_⟩ <;> simp [_parse_open_json, hm, hv, ht, hd]
        | some date =>
          by_cases hex : (a.facts_save_folder ++ "/" ++ ticker ++ "_facts-"
              ++ date ++ ".pkl") ∈ a.existing_files
          · have h1 : _parse_open_json a = ⟨true, none⟩ := by
              simp [_parse_open_json, hm, hv, ht, hd, hex]
            refine ⟨?_, ?_, ?_⟩
            · intro p hp; rw [h1] at hp; simp at hp
            · simp [_parse_open_json, hm, hv, ht, hd, h1, hex]
            · rw [h1]
          · by_cases hemp : unitsOfFacts data.facts = []
            · have h1 : _parse_open_json a = ⟨true, none⟩ := by
                simp [_parse_open_json, hm, hv, ht, hd, hex, hemp]
              refine ⟨?_, ?_, ?_⟩
              · intro p hp; rw [h1] at hp; simp at hp
              · simp [_parse_open_json, hm, hv, ht, hd, h1, hex, hemp]
              · rw [h1]
            · have h1 : _parse_open_json a
                  = ⟨true, some (a.facts_save_folder ++ "/" ++ ticker ++ "_facts-"
                      ++ date ++ ".pkl")⟩ := by
                simp [_parse_open_json, hm, hv, ht, hd, hex, hemp]
              refine ⟨?_, ?_, ?_⟩
              · intro p hp
                rw [h1] at hp
                simp at hp
                subst hp
                exact hex
              · simp [_parse_open_json, hm, hv, ht, hd, h1, hex, hemp]
              · rw [h1]

/-- C4 witness: a fresh run writes its output path (which did not exist),
and the re-run over the grown existing set writes nothing. -/
theorem C4_skip_idempotent_witness :
    (_parse_open_json parseOpenArgsFresh).wrote = some "facts/AAPL_facts-2024-01-02.pkl"
    ∧ "facts/AAPL_facts-2024-01-02.pkl" ∉ parseOpenArgsFresh.existing_files
    ∧ (_parse_open_json { parseOpenArgsFresh with existing_files :=
        parseOpenArgsFresh.existing_files
          ++ ((_parse_open_json parseOpenArgsFresh).wrote.toList) }).wrote = none :=
  ⟨rfl, (C4_skip_idempotent parseOpenArgsFresh).1 "facts/AAPL_facts-2024-01-02.pkl" rfl,
    (C4_skip_idempotent parseOpenArgsFresh).2.1⟩

/-- Every failure of `validate_and_return_cik` is a `ValueError`. -/
theorem validate_and_return_cik_error_shape (s : String)
    (m : List (String × String)) (e : PyErr)
    (h : validate_and_return_cik s m = Except.error e) :
    ∃ msg, e = PyErr.valueError msg := by
  simp only [validate_and_return_cik] at h
  repeat' split at h
  all_goals first
    | exact ⟨_, (Except.error.inj h).symm⟩
    | simp at h

/-- Every failure of `validate_and_parse_date` is a `ValueError`. -/
theorem validate_and_parse_date_error_shape (s : String) (e : PyErr)
    (h : validate_and_parse_date s = Except.error e) :
    ∃ msg, e = PyErr.valueError msg := by
  unfold validate_and_parse_date at h
  split at h
  · simp at h
  · exact ⟨_, (Except.error.inj h).symm⟩

/-- Every failure of `get_valid_after_date` is a `ValueError`. -/
theorem get_valid_after_date_error_shape (after : Option String) (dflt : Date)
    (e : PyErr) (h : get_valid_after_date after dflt = Except.error e) :
    ∃ msg, e = PyErr.valueError msg := by
  cases after with
  | none => simp [get_valid_after_date] at h
  | some a =>
    simp only [get_valid_after_date] at h
    cases hv : validate_and_parse_date a with
    | error e2 =>
      rw [hv] at h
      obtain ⟨msg, hmsg⟩ := validate_and_parse_date_error_shape a e2 hv
      exact ⟨msg, by rw [← (Except.error.inj h), hmsg]⟩
    | ok d => rw [hv] at h; simp at h

/-- Every failure of `beforeDateOf` is a `ValueError`. -/
theorem beforeDateOf_error_shape (before : Option String) (env : EdgarEnv)
    (e : PyErr) (h : beforeDateOf before env = Except.error e) :
    ∃ msg, e = PyErr.valueError msg := by
  unfold beforeDateOf at h
  cases before with
  | none => simp at h
  | some b => exact validate_and_parse_date_error_shape b e h

/-- C5: if the parsed after date exceeds the before date, or the limit is
below 1, or some requested form is unsupported, then
`download_forms_by_company` raises a `ValueError` and issues zero page
requests and zero document requests. -/
theorem C5_validation_before_network (env : EdgarEnv) (ticker_or_cik : String)
    (form_types : List String) (limit : Option Int) (after before : Option String)
    (include_amends download_details : Bool)
    (h : limitToInt limit < 1
      ∨ (∃ a b, get_valid_after_date after env.default_after_date = Except.ok a
          ∧ beforeDateOf before env = Except.ok b ∧ Date.blt b a = true)
      ∨ (∃ f, f ∈ form_types ∧ env.supported_forms.contains f = false)) :
    (∃ msg, (download_forms_by_company env ticker_or_cik form_types limit after
        before include_amends download_details).outcome
        = Except.error (PyErr.valueError msg))
    ∧ (download_forms_by_company env ticker_or_cik form_types limit after
        before include_amends download_details).pages_fetched = 0
    ∧ (download_forms_by_company env ticker_or_cik form_types limit after
        before include_amends download_details).documents_fetched = 0 := by
  cases hv : validate_and_return_cik ticker_or_cik env.ticker_to_cik_mapping with
  | error e =>
    obtain ⟨msg, hmsg⟩ := validate_and_return_cik_error_shape _ _ _ hv
    subst hmsg
    exact ⟨⟨msg, by simp [download_forms_by_company, hv]⟩,
      by simp [download_forms_by_company, hv],
      by simp [download_forms_by_company, hv]⟩
  | ok cik =>
    by_cases hlim : limitToInt limit < 1
    · exact ⟨⟨"Invalid limit. Please enter a number greater than 1.",
        by simp [download_forms_by_company, hv, hlim]⟩,
        by simp [download_forms_by_company, hv, hlim],
        by simp [download_forms_by_company, hv, hlim]⟩
    · cases ha : get_valid_after_date after env.default_after_date with
      | error e =>
        obtain ⟨msg, hmsg⟩ := get_valid_after_date_error_shape _ _ _ ha
        subst hmsg
        exact ⟨⟨msg, by simp [download_forms_by_company, hv, hlim, ha]⟩,
          by simp [download_forms_by_company, hv, hlim, ha],
          by simp [download_forms_by_company, hv, hlim, ha]⟩
      | ok a0 =>
        cases hb : beforeDateOf before env with
        | error e =>
          obtain ⟨msg, hmsg⟩ := beforeDateOf_error_shape _ _ _ hb
          subst hmsg
          exact ⟨⟨msg, by simp [download_forms_by_company, hv, hlim, ha, hb]⟩,
            by simp [download_forms_by_company, hv, hlim, ha, hb],
            by simp [download_forms_by_company, hv, hlim, ha, hb]⟩
        | ok b0 =>
          by_cases hblt : Date.blt b0 a0 = true
          · exact ⟨⟨"After date cannot be greater than the before date.",
              by simp [download_forms_by_company, hv, hlim, ha, hb, hblt]⟩,
              by simp [download_forms_by_company, hv, hlim, ha, hb, hblt],
              by simp [download_forms_by_company, hv, hlim, ha, hb, hblt]⟩
          · rcases h with h1 | ⟨a1, b1, ha1, hb1, hab⟩ | ⟨f, hf, hfs⟩
            · exact absurd h1 hlim
            · rw [ha] at ha1
              rw [hb] at hb1
              rw [← Except.ok.inj ha1, ← Except.ok.inj hb1] at hab
              exact absurd hab hblt
            · have hex2 : ∃ x ∈ form_types, x ∉ env.supported_forms :=
                ⟨f, hf, by simpa using hfs⟩
              exact ⟨⟨"Some of the requested forms are not supported.",
                by simp [download_forms_by_company, hv, hlim, ha, hb, hblt, hex2]⟩,
                by simp [download_forms_by_company, hv, hlim, ha, hb, hblt, hex2],
                by simp [download_forms_by_company, hv, hlim, ha, hb, hblt, hex2]⟩

/-- C5 witness: limit 0 is rejected with a `ValueError` and no page or
document request. -/
theorem C5_validation_before_network_witness :
    (∃ msg, (download_forms_by_company envFix "AAPL" ["10-K"] (some 0) none none
        false true).outcome = Except.error (PyErr.valueError msg))
    ∧ (download_forms_by_company envFix "AAPL" ["10-K"] (some 0) none none
        false true).pages_fetched = 0
    ∧ (download_forms_by_company envFix "AAPL" ["10-K"] (some 0) none none
        false true).documents_fetched = 0 :=
  C5_validation_before_network envFix "AAPL" ["10-K"] (some 0) none none false true
    (Or.inl (by decide))
